import Mathlib

/-!
Verification of the hushline local issue-to-PR agent (`.agent/agent.py`).

The agent's pure text processing (slugify, unified-diff extraction) is
embedded directly; its effectful pipeline (git commands, HTTP calls,
preflight commands, the poll loop and the persisted dedup store) is
embedded as explicit state passing over an environment oracle that fixes
the outcome (exit status, stdout, stderr) of every external command and
HTTP call, per the exit-code semantics the design assigns to external
processes.  Python exceptions are modelled with `Except`; text is modelled
as `List Char` / `String` over ASCII.
-/

/-- ASCII model of Python's whitespace class (regex class s and the default
class stripped by str.strip): space, tab, newline, carriage return,
vertical tab, form feed. -/
def pySpace (c : Char) : Bool :=
  c = ' ' || c = '\t' || c = '\n' || c = '\x0d' || c = Char.ofNat 11 || c = Char.ofNat 12

/-- Literal (case-sensitive) list-prefix test. -/
def litPre : List Char → List Char → Bool
  | [], _ => true
  | _ :: _, [] => false
  | a :: ps, b :: ss => a = b && litPre ps ss

/-- Case-insensitive list-prefix test (ASCII case folding, as the regex
IGNORECASE flag behaves on the ASCII tag letters involved). -/
def ciPre : List Char → List Char → Bool
  | [], _ => true
  | _ :: _, [] => false
  | a :: ps, b :: ss => a.toLower = b.toLower && ciPre ps ss

/-- Python str.strip(): remove leading and trailing whitespace. -/
def pyStrip (l : List Char) : List Char :=
  ((l.dropWhile pySpace).reverse.dropWhile pySpace).reverse

-- ---------- slugify (agent.py lines 55-59) ----------

/-- The character class kept by `slugify`'s first substitution: the regex
replaces every maximal run of characters outside [a-z0-9\-._/] with one
hyphen, so lowercase letters, digits, hyphen, dot, underscore and slash
survive. -/
def slugKeep (c : Char) : Bool :=
  ('a' ≤ c && c ≤ 'z') || ('0' ≤ c && c ≤ '9') || c = '-' || c = '.' || c = '_' || c = '/'

/-- re.sub of each maximal run of non-kept characters by a single hyphen;
`inRun` records whether the previous character was part of such a run. -/
def collapseBadGo (inRun : Bool) : List Char → List Char
  | [] => []
  | c :: cs =>
    if slugKeep c then c :: collapseBadGo false cs
    else if inRun then collapseBadGo true cs
    else '-' :: collapseBadGo true cs

def collapseBad (l : List Char) : List Char := collapseBadGo false l

/-- re.sub collapsing each maximal run of hyphens to a single hyphen. -/
def collapseDashGo (inRun : Bool) : List Char → List Char
  | [] => []
  | c :: cs =>
    if c = '-' then
      (if inRun then collapseDashGo true cs else '-' :: collapseDashGo true cs)
    else c :: collapseDashGo false cs

def collapseDash (l : List Char) : List Char := collapseDashGo false l

/-- Python str.strip with the single argument "-". -/
def stripDash (l : List Char) : List Char :=
  ((l.dropWhile (fun c => c = '-')).reverse.dropWhile (fun c => c = '-')).reverse

/-- agent.py slugify on character lists: lowercase, collapse runs of
characters outside [a-z0-9\-._/] to "-", collapse "-" runs, strip "-",
truncate to 60, fall back to "change" when empty. -/
def slugifyL (s : List Char) : List Char :=
  let t := (stripDash (collapseDash (collapseBad (s.map Char.toLower)))).take 60
  if t.isEmpty then "change".data else t

/-- agent.py `slugify`. -/
def slugify (s : String) : String := String.mk (slugifyL s.data)

/-- agent.py `minimal_branch_name`: deterministic branch name from issue
number and slugified title. -/
def minimal_branch_name (number : Nat) (title : String) : String :=
  "agent/issue-" ++ toString number ++ "-" ++ slugify title

-- ---------- extract_unified_diff (agent.py lines 190-198) ----------

/-- Candidate text of the fenced-block regex match starting right after an
opening triple backtick: the optional (?:diff|patch) tag (case-insensitive)
is consumed greedily, then a greedy whitespace run, and the lazy group
extends to the first closing triple backtick. -/
def backtick3 : List Char := ['\x60', '\x60', '\x60']

/-- Lazy group contents: characters up to the first triple backtick, or
none when no closing fence exists. -/
def findClose : List Char → Option (List Char)
  | [] => none
  | c :: cs =>
    if litPre backtick3 (c :: cs) then some []
    else (findClose cs).map (fun g => c :: g)

/-- Consume the optional diff/patch tag and the greedy whitespace run. -/
def fenceTail (s : List Char) : List Char :=
  let s1 := if ciPre "diff".data s then s.drop 4
            else if ciPre "patch".data s then s.drop 5
            else s
  s1.dropWhile pySpace

/-- Whole-pattern match attempt anchored at the start of `s`. -/
def matchFenceAt (s : List Char) : Option (List Char) :=
  if litPre backtick3 s then findClose (fenceTail (s.drop 3)) else none

/-- re.search of the fenced-block pattern: leftmost position at which the
pattern matches, returning the lazy group. -/
def searchFence : List Char → Option (List Char)
  | [] => none
  | c :: cs =>
    match matchFenceAt (c :: cs) with
    | some g => some g
    | none => searchFence cs

/-- Anchor of the multiline regex search for three dashes followed by a
whitespace character. -/
def dashPre (s : List Char) : Bool :=
  litPre ['-', '-', '-'] s &&
    (match s.drop 3 with
     | [] => false
     | c :: _ => pySpace c)

/-- Anchor of the multiline regex search for three plus signs followed by a
whitespace character. -/
def plusPre (s : List Char) : Bool :=
  litPre ['+', '+', '+'] s &&
    (match s.drop 3 with
     | [] => false
     | c :: _ => pySpace c)

/-- Does `p` hold at some position right after a newline? -/
def matchesAfterNl (p : List Char → Bool) : List Char → Bool
  | [] => false
  | c :: cs => (c = '\n' && p cs) || matchesAfterNl p cs

/-- Multiline-anchored search: `p` holds at the start of the text or right
after some newline. -/
def hasLineMatch (p : List Char → Bool) (t : List Char) : Bool :=
  p t || matchesAfterNl p t

/-- agent.py `extract_unified_diff` on character lists: first fenced code
block if any (its trimmed lazy-group contents), else the trimmed raw text
when it has both a ----prefixed and a +++-prefixed line, else empty. -/
def extractDiffL (text : List Char) : List Char :=
  match searchFence text with
  | some g => pyStrip g
  | none =>
    if hasLineMatch dashPre text && hasLineMatch plusPre text then pyStrip text
    else []

/-- agent.py `extract_unified_diff`. -/
def extract_unified_diff (s : String) : String := String.mk (extractDiffL s.data)

example : extract_unified_diff "no diff here" = "" := by decide
example : extract_unified_diff "```diff\n--- a/f\n+++ b/f\n```" = "--- a/f\n+++ b/f" := by decide
example : extract_unified_diff "```\nhello\n```" = "hello" := by decide
example : slugify "Fix login crash" = "fix-login-crash" := by decide
example : slugify "!!!" = "change" := by decide
example : slugify "a..b" = "a..b" := by decide

-- ---------- External-world model for the effectful pipeline ----------

/-- Outcome of one external command or HTTP call: exit-status success flag
plus captured stdout and stderr. -/
structure CmdOutcome where
  ok : Bool
  out : String
  err : String

/-- One issue snapshot as read from the tracker. -/
structure Issue where
  number : Nat
  title : String
  body : String
deriving DecidableEq, Repr

/-- Oracle fixing the outcome of every external interaction of one
`process_issue` run.  `ackOk` is the acknowledgment-comment call (its
failure is swallowed by `ack_issue`); the four `ensure_clean_main` git
commands, branch creation, the prompt-template read, the model call, the
`git apply` of the diff, `git add`, `git commit`, `git push` and the PR
creation each get a success flag; `llmOut` is the model completion text;
the four file-existence flags and `cmdResult` drive `run_checks`. -/
structure AgentEnv where
  ackOk : Bool
  fetchOk : Bool
  checkoutOk : Bool
  resetOk : Bool
  cleanOk : Bool
  branchOk : Bool
  promptOk : Bool
  llmOk : Bool
  llmOut : String
  applyOk : Bool
  poetryLock : Bool
  pyproject : Bool
  testsDir : Bool
  preCommitCfg : Bool
  cmdResult : String → CmdOutcome
  addOk : Bool
  commitOk : Bool
  pushOk : Bool
  prOk : Bool

/-- Persistent git configuration the pipeline mutates: the named remotes
(name, url).  Only remote management touches it. -/
structure GitState where
  remotes : List (String × String)
deriving DecidableEq, Repr

/-- Actions the pipeline performs against the outside world, in order. -/
inductive AgentAct where
  | ack
  | gitFetch
  | gitCheckout
  | gitResetHard
  | gitClean
  | gitBranch (name : String)
  | ollama
  | writeScratch (diff : String)
  | gitApply (diff : String)
  | preflightCmd (cmd : String)
  | gitAdd
  | gitCommit (msg : String)
  | remoteRemove (name : String)
  | remoteAdd (name : String) (url : String)
  | gitPush (remote : String) (branch : String)
  | openPR (title : String)
deriving DecidableEq, Repr

/-- Exceptions escaping a pipeline step. -/
inductive AgentErr where
  | gitFail (a : AgentAct)
  | httpFail (what : String)
  | ioFail (what : String)
  | noDiff
deriving DecidableEq, Repr

-- ---------- run_checks (agent.py lines 215-242) ----------

/-- The log entry `exec_log` records for a command: the invocation line and
the captured stdout/stderr — the same shape for a failing command, whose
output is read off the raised CalledProcessError. -/
def execEntry (env : AgentEnv) (cmd : String) : String :=
  "$ " ++ cmd ++ "\n" ++ (env.cmdResult cmd).out ++ "\n" ++ (env.cmdResult cmd).err

/-- The two pre-commit commands, when a pre-commit config exists. -/
def preCommitCmds (env : AgentEnv) : List String :=
  if env.preCommitCfg then
    ["python3 -m pip install -U pre-commit", "pre-commit run --all-files -v || true"]
  else []

/-- The commands `run_checks` executes, in order: the poetry branch returns
early (skipping pytest and pre-commit) when `poetry install` fails;
otherwise the pyproject/tests branch or nothing, then pre-commit. -/
def checksCmds (env : AgentEnv) : List String :=
  if env.poetryLock then
    ["python3 -m pip install -U pip", "python3 -m pip install -U poetry",
     "poetry install --no-root -q"] ++
    (if (env.cmdResult "poetry install --no-root -q").ok then
      ["poetry run pytest -q"] ++ preCommitCmds env
     else [])
  else if env.pyproject || env.testsDir then
    ["python3 -m pip install -U pip pytest -q", "pytest -q"] ++ preCommitCmds env
  else preCommitCmds env

/-- agent.py `run_checks`, as the list of log entries it accumulates: one
entry per executed command, success or failure alike (`exec_log` catches
the CalledProcessError of a failing command and logs its output). -/
def run_checks_log (env : AgentEnv) : List String :=
  (checksCmds env).map (execEntry env)

/-- agent.py `run_checks`: the concatenated log text it returns. -/
def run_checks (env : AgentEnv) : String :=
  String.intercalate "\n\n" (run_checks_log env)

-- ---------- remote management (agent.py lines 114-125) ----------

/-- `git remote remove name`: drops every remote of that name; with
check=False a missing remote only yields a nonzero exit that is ignored. -/
def remoteRemoveSt (n : String) (g : GitState) : GitState :=
  ⟨g.remotes.filter (fun r => r.1 != n)⟩

/-- The token-embedding URL built by `create_ephemeral_remote`. -/
def ephemeralUrl (token owner repo : String) : String :=
  "https://x-access-token:" ++ token ++ "@github.com/" ++ owner ++ "/" ++ repo ++ ".git"

/-- agent.py `create_ephemeral_remote`: first `git remote remove` with
check=False (failure ignored), then `git remote add` of the fresh URL —
which cannot fail on a duplicate name since the name was just removed.
Returns the new git state and the actions performed. -/
def create_ephemeral_remote (token owner repo : String) (g : GitState) :
    GitState × List AgentAct :=
  (⟨(remoteRemoveSt "agent-origin" g).remotes ++
      [("agent-origin", ephemeralUrl token owner repo)]⟩,
   [AgentAct.remoteRemove "agent-origin",
    AgentAct.remoteAdd "agent-origin" (ephemeralUrl token owner repo)])

/-- agent.py `delete_ephemeral_remote`: `git remote remove` with
check=False. -/
def delete_ephemeral_remote (g : GitState) : GitState × List AgentAct :=
  (remoteRemoveSt "agent-origin" g, [AgentAct.remoteRemove "agent-origin"])

/-- The publish step of `process_issue` (lines 371-376): create the
ephemeral remote, push through it inside try, and in the finally block
unconditionally delete the remote; a push failure is re-raised after the
cleanup ran. -/
def publish (token owner repo branch : String) (env : AgentEnv) (g : GitState) :
    Except AgentErr Unit × GitState × List AgentAct :=
  let c := create_ephemeral_remote token owner repo g
  let pushAct := AgentAct.gitPush "agent-origin" branch
  let pushRes : Except AgentErr Unit :=
    if env.pushOk then Except.ok () else Except.error (AgentErr.gitFail pushAct)
  let d := delete_ephemeral_remote c.1
  (pushRes, d.1, c.2 ++ [pushAct] ++ d.2)

-- ---------- process_issue (agent.py lines 339-382) ----------

deriving instance DecidableEq for Except

/-- Result of one `process_issue` run: the normal return or the escaping
exception, the ordered actions attempted, and the final git state. -/
structure PipeRes where
  res : Except AgentErr Unit
  trace : List AgentAct
  git : GitState

/-- agent.py `process_issue`: acknowledgment (comment failure swallowed),
clean base reset, topic branch, prompt build, model call, diff extraction
(empty extraction raises), scratch write plus `git apply --index
--whitespace=fix` (the only apply attempt), preflight checks, commit,
publish through the ephemeral remote, PR creation.  Each external failure
raises and aborts the remaining steps. -/
def process_issue (token owner repo : String) (issue : Issue) (env : AgentEnv)
    (g0 : GitState) : PipeRes :=
  let t0 : List AgentAct := [AgentAct.ack]
  if !env.fetchOk then ⟨Except.error (AgentErr.gitFail AgentAct.gitFetch), t0 ++ [AgentAct.gitFetch], g0⟩ else
  let t1 := t0 ++ [AgentAct.gitFetch]
  if !env.checkoutOk then ⟨Except.error (AgentErr.gitFail AgentAct.gitCheckout), t1 ++ [AgentAct.gitCheckout], g0⟩ else
  let t2 := t1 ++ [AgentAct.gitCheckout]
  if !env.resetOk then ⟨Except.error (AgentErr.gitFail AgentAct.gitResetHard), t2 ++ [AgentAct.gitResetHard], g0⟩ else
  let t3 := t2 ++ [AgentAct.gitResetHard]
  if !env.cleanOk then ⟨Except.error (AgentErr.gitFail AgentAct.gitClean), t3 ++ [AgentAct.gitClean], g0⟩ else
  let t4 := t3 ++ [AgentAct.gitClean]
  let branch := minimal_branch_name issue.number issue.title
  if !env.branchOk then ⟨Except.error (AgentErr.gitFail (AgentAct.gitBranch branch)), t4 ++ [AgentAct.gitBranch branch], g0⟩ else
  let t5 := t4 ++ [AgentAct.gitBranch branch]
  if !env.promptOk then ⟨Except.error (AgentErr.ioFail "prompt_template"), t5, g0⟩ else
  if !env.llmOk then ⟨Except.error (AgentErr.httpFail "ollama"), t5 ++ [AgentAct.ollama], g0⟩ else
  let t6 := t5 ++ [AgentAct.ollama]
  let diff := extract_unified_diff env.llmOut
  if diff = "" then ⟨Except.error AgentErr.noDiff, t6, g0⟩ else
  let t7 := t6 ++ [AgentAct.writeScratch diff, AgentAct.gitApply diff]
  if !env.applyOk then ⟨Except.error (AgentErr.gitFail (AgentAct.gitApply diff)), t7, g0⟩ else
  let t8 := t7 ++ (checksCmds env).map AgentAct.preflightCmd
  if !env.addOk then ⟨Except.error (AgentErr.gitFail AgentAct.gitAdd), t8 ++ [AgentAct.gitAdd], g0⟩ else
  let t9 := t8 ++ [AgentAct.gitAdd]
  let msg := "fix: minimal change for issue #" ++ toString issue.number ++ " (" ++ issue.title ++ ")"
  if !env.commitOk then ⟨Except.error (AgentErr.gitFail (AgentAct.gitCommit msg)), t9 ++ [AgentAct.gitCommit msg], g0⟩ else
  let t10 := t9 ++ [AgentAct.gitCommit msg]
  let p := publish token owner repo branch env g0
  let t11 := t10 ++ p.2.2
  match p.1 with
  | Except.error e => ⟨Except.error e, t11, p.2.1⟩
  | Except.ok _ =>
    let prTitle := issue.title ++ " [agent]"
    if !env.prOk then ⟨Except.error (AgentErr.httpFail "open_pr"), t11 ++ [AgentAct.openPR prTitle], p.2.1⟩ else
    ⟨Except.ok (), t11 ++ [AgentAct.openPR prTitle], p.2.1⟩

-- ---------- Dedup store, persistence and the poll loop ----------

/-- JSON-like values the persisted state can hold for one issue key: the
program writes a one-field object, but the state file is loaded from disk,
so the loop's truthiness check sees arbitrary JSON values. -/
inductive JVal where
  | null
  | jbool (b : Bool)
  | jstr (s : String)
  | jdict (fields : List (String × JVal))

/-- Python truthiness of such a value, as `if already:` evaluates it. -/
def truthy : JVal → Bool
  | JVal.null => false
  | JVal.jbool b => b
  | JVal.jstr s => s != ""
  | JVal.jdict l => !l.isEmpty

/-- Key lookup in the ordered key/value list of a JSON object. -/
def lookupJ (k : String) : List (String × JVal) → Option JVal
  | [] => none
  | kv :: t => if kv.1 = k then some kv.2 else lookupJ k t

/-- Python dict assignment: replace an existing key in place, else append. -/
def insertJ (k : String) (v : JVal) : List (String × JVal) → List (String × JVal)
  | [] => [(k, v)]
  | kv :: t => if kv.1 = k then (k, v) :: t else kv :: insertJ k v t

/-- The in-memory agent state: the processed-issues mapping and the
last-run timestamp. -/
structure AgentState where
  processed : List (String × JVal)
  lastRun : Option String

mutual
/-- Serialization of a JSON value, standing in for json.dump. -/
def encodeJ : JVal → String
  | JVal.null => "null"
  | JVal.jbool b => if b then "true" else "false"
  | JVal.jstr s => "\"" ++ s ++ "\""
  | JVal.jdict l => "\x7b" ++ encodeFields l ++ "\x7d"

def encodeFields : List (String × JVal) → String
  | [] => ""
  | [kv] => "\"" ++ kv.1 ++ "\": " ++ encodeJ kv.2
  | kv :: t => "\"" ++ kv.1 ++ "\": " ++ encodeJ kv.2 ++ ", " ++ encodeFields t
end

/-- Serialization of the whole state object. -/
def encodeState (st : AgentState) : String :=
  encodeJ (JVal.jdict
    [("last_run", match st.lastRun with | none => JVal.null | some ts => JVal.jstr ts),
     ("processed_issues", JVal.jdict st.processed)])

/-- The two files `save_json` touches: the state file and its sibling
temporary file. -/
structure FSt where
  stateFile : Option String
  tmpFile : Option String
deriving DecidableEq, Repr

/-- agent.py `save_json`: write the serialized object to the temporary
file, then rename it over the state file. -/
def save_json (_fs : FSt) (content : String) : FSt :=
  ⟨some content, none⟩

/-- Every filesystem state observable if the process dies during
`save_json`: the initial state, each partial or complete write of the
temporary file, and the state after the atomic rename. -/
def save_json_snapshots (fs : FSt) (content : String) : List FSt :=
  fs :: (List.range (content.length + 1)).map
      (fun k => ⟨fs.stateFile, some (content.take k)⟩)
    ++ [⟨some content, none⟩]

/-- agent.py `save_state`: stamp last_run, then `save_json` the state. -/
def save_state (st : AgentState) (ts : String) : AgentState × String :=
  let st2 : AgentState := ⟨st.processed, some ts⟩
  (st2, encodeState st2)

/-- Per-tick oracle: whether the issue-listing call succeeds, the
per-issue pipeline environments, and the wall-clock readings used for the
processed_at and last_run timestamps. -/
structure TickEnv where
  listOk : Bool
  envOf : Nat → AgentEnv
  tsOf : Nat → String
  tsTick : String

/-- Observable events of one poll tick: a pipeline invocation for one
issue (with its action trace and outcome) and each flush of the state
file with the serialized content written. -/
inductive TickEv where
  | attempt (num : String) (acts : List AgentAct) (ok : Bool)
  | flush (content : String)

/-- The number an issue is keyed under in the processed mapping. -/
def issueKey (issue : Issue) : String := toString issue.number

/-- The loop's dedup test `if already:` — Python truthiness of
`state["processed_issues"].get(num)`: false when the key is absent, and
the truthiness of the stored value when present. -/
def alreadyProcessed (num : String) (st : AgentState) : Bool :=
  match lookupJ num st.processed with
  | none => false
  | some v => truthy v

/-- The per-issue body of the poll loop (agent.py lines 413-425): skip the
issue when its stored record is truthy; otherwise run `process_issue`; on
success mark it processed and flush; on failure leave the store alone. -/
def processLoop (token owner repo : String) (te : TickEnv) :
    List Issue → AgentState → GitState → AgentState × GitState × List TickEv
  | [], st, g => (st, g, [])
  | issue :: rest, st, g =>
    if alreadyProcessed (issueKey issue) st then processLoop token owner repo te rest st g
    else
      let r := process_issue token owner repo issue (te.envOf issue.number) g
      match r.res with
      | Except.ok _ =>
        let st1 : AgentState :=
          ⟨insertJ (issueKey issue)
              (JVal.jdict [("processed_at", JVal.jstr (te.tsOf issue.number))])
              st.processed,
           st.lastRun⟩
        let saved := save_state st1 (te.tsOf issue.number)
        let out := processLoop token owner repo te rest saved.1 r.git
        (out.1, out.2.1,
         TickEv.attempt (issueKey issue) r.trace true :: TickEv.flush saved.2 :: out.2.2)
      | Except.error _ =>
        let out := processLoop token owner repo te rest st r.git
        (out.1, out.2.1, TickEv.attempt (issueKey issue) r.trace false :: out.2.2)

/-- One tick of the poll loop (agent.py lines 410-429): list the open
labeled issues (a listing failure is caught and skips the scan), run the
per-issue loop, then `save_state` unconditionally before sleeping. -/
def tick (token owner repo : String) (te : TickEnv) (issues : List Issue)
    (st : AgentState) (g : GitState) : AgentState × GitState × List TickEv :=
  let scanned :=
    if te.listOk then processLoop token owner repo te issues st g
    else (st, g, [])
  let saved := save_state scanned.1 te.tsTick
  (saved.1, scanned.2.1, scanned.2.2 ++ [TickEv.flush saved.2])

/-- Several consecutive ticks, each with its own issue listing and oracle. -/
def runTicks (token owner repo : String) :
    List (TickEnv × List Issue) → AgentState → GitState →
    AgentState × GitState × List TickEv
  | [], st, g => (st, g, [])
  | (te, issues) :: rest, st, g =>
    let one := tick token owner repo te issues st g
    let more := runTicks token owner repo rest one.1 one.2.1
    (more.1, more.2.1, one.2.2 ++ more.2.2)

/-- Issue keys for which a tick actually invoked the pipeline. -/
def attemptedNums (evs : List TickEv) : List String :=
  evs.filterMap (fun e =>
    match e with
    | TickEv.attempt n _ _ => some n
    | TickEv.flush _ => none)

/-- Does the event list start with a flush? -/
def headIsFlush : List TickEv → Bool
  | TickEv.flush _ :: _ => true
  | _ => false

/-- Every successful pipeline invocation is immediately followed by a
flush of the state file. -/
def mutationsFlushed : List TickEv → Bool
  | [] => true
  | TickEv.flush _ :: rest => mutationsFlushed rest
  | TickEv.attempt _ _ ok :: rest => (!ok || headIsFlush rest) && mutationsFlushed rest

-- ---------- Helper lemmas ----------

lemma filter_ne_then_eq (n : String) (l : List (String × String)) :
    (l.filter (fun r => r.1 != n)).filter (fun r => r.1 == n) = [] := by
  induction l with
  | nil => rfl
  | cons a t ih =>
    by_cases h : a.1 = n <;> simp [List.filter_cons, h, ih]

lemma all_ne_of_filter_ne (n : String) (l : List (String × String)) :
    (l.filter (fun r => r.1 != n)).all (fun r => r.1 != n) = true := by
  simp only [List.all_eq_true]
  intro r hr
  exact (List.mem_filter.mp hr).2

-- ---------- C10 ----------

/-- C10: `create_ephemeral_remote` first removes any pre-existing remote of
the ephemeral name (ignoring failure of that removal) and then adds the
freshly constructed token-embedding URL, so afterwards the ephemeral name
resolves to exactly that URL — also when a remote of that name was left
behind by an earlier crashed run. -/
theorem create_ephemeral_remote_fresh (token owner repo : String) (g : GitState) :
    (create_ephemeral_remote token owner repo g).1.remotes.filter
        (fun r => r.1 == "agent-origin") =
      [("agent-origin", ephemeralUrl token owner repo)] ∧
    (create_ephemeral_remote token owner repo g).2 =
      [AgentAct.remoteRemove "agent-origin",
       AgentAct.remoteAdd "agent-origin" (ephemeralUrl token owner repo)] := by
  refine ⟨?_, rfl⟩
  simp [create_ephemeral_remote, remoteRemoveSt, List.filter_append, filter_ne_then_eq]

-- ---------- C7 ----------

/-- C7: after `publish` returns — whether the push succeeded or the push
exception propagates — the ephemeral remote has been removed: no remote
named agent-origin remains in the git configuration, so the token is not
resolvable from it; and the push outcome alone decides publish's result. -/
theorem publish_cleans_ephemeral_remote (token owner repo branch : String)
    (env : AgentEnv) (g : GitState) :
    (publish token owner repo branch env g).2.1.remotes.all
        (fun r => r.1 != "agent-origin") = true ∧
    ((publish token owner repo branch env g).1 = Except.ok () ↔ env.pushOk = true) := by
  constructor
  · simp only [publish, delete_ephemeral_remote, remoteRemoveSt]
    exact all_ne_of_filter_ne _ _
  · simp only [publish]
    cases h : env.pushOk <;> simp [h]

-- ---------- process_issue characterization ----------

lemma process_issue_ok_iff (token owner repo : String) (issue : Issue)
    (env : AgentEnv) (g : GitState) :
    (process_issue token owner repo issue env g).res = Except.ok () ↔
      (env.fetchOk = true ∧ env.checkoutOk = true ∧ env.resetOk = true ∧
       env.cleanOk = true ∧ env.branchOk = true ∧ env.promptOk = true ∧
       env.llmOk = true ∧ extract_unified_diff env.llmOut ≠ "" ∧
       env.applyOk = true ∧ env.addOk = true ∧ env.commitOk = true ∧
       env.pushOk = true ∧ env.prOk = true) := by
  constructor
  · intro h
    cases hfe : env.fetchOk
    · simp [process_issue, hfe] at h
    cases hco : env.checkoutOk
    · simp [process_issue, hfe, hco] at h
    cases hre : env.resetOk
    · simp [process_issue, hfe, hco, hre] at h
    cases hcl : env.cleanOk
    · simp [process_issue, hfe, hco, hre, hcl] at h
    cases hbr : env.branchOk
    · simp [process_issue, hfe, hco, hre, hcl, hbr] at h
    cases hpm : env.promptOk
    · simp [process_issue, hfe, hco, hre, hcl, hbr, hpm] at h
    cases hll : env.llmOk
    · simp [process_issue, hfe, hco, hre, hcl, hbr, hpm, hll] at h
    by_cases hdf : extract_unified_diff env.llmOut = ""
    · simp [process_issue, hfe, hco, hre, hcl, hbr, hpm, hll, hdf] at h
    cases hap : env.applyOk
    · simp [process_issue, hfe, hco, hre, hcl, hbr, hpm, hll, hdf, hap] at h
    cases had : env.addOk
    · simp [process_issue, hfe, hco, hre, hcl, hbr, hpm, hll, hdf, hap, had] at h
    cases hcm : env.commitOk
    · simp [process_issue, hfe, hco, hre, hcl, hbr, hpm, hll, hdf, hap, had, hcm] at h
    cases hps : env.pushOk
    · simp [process_issue, publish, hfe, hco, hre, hcl, hbr, hpm, hll, hdf, hap, had,
        hcm, hps] at h
    cases hpr : env.prOk
    · simp [process_issue, publish, hfe, hco, hre, hcl, hbr, hpm, hll, hdf, hap, had,
        hcm, hps, hpr] at h
    exact ⟨rfl, rfl, rfl, rfl, rfl, rfl, rfl, hdf, rfl, rfl, rfl, rfl, rfl⟩
  · rintro ⟨hfe, hco, hre, hcl, hbr, hpm, hll, hdf, hap, had, hcm, hps, hpr⟩
    simp [process_issue, publish, hfe, hco, hre, hcl, hbr, hpm, hll, hdf, hap, had,
      hcm, hps, hpr]

-- ---------- Concrete environments for witnesses and counterexamples ----------

/-- Oracle in which every external command succeeds with empty output. -/
def allOkCmd : String → CmdOutcome := fun _ => ⟨true, "", ""⟩

/-- Oracle in which every external command fails. -/
def failCmd : String → CmdOutcome := fun _ => ⟨false, "boom", "anger"⟩

/-- A model completion carrying a well-formed fenced diff. -/
def goodDiffOut : String := "```diff\n--- a/f\n+++ b/f\n```"

/-- Environment in which every step succeeds and the model returns a
fenced diff; no preflight tooling is declared. -/
def envAllOk : AgentEnv :=
  ⟨true, true, true, true, true, true, true, true, goodDiffOut, true,
   false, false, false, false, allOkCmd, true, true, true, true⟩

/-- As `envAllOk` but the one `git apply` invocation fails. -/
def envApplyFail : AgentEnv := { envAllOk with applyOk := false }

/-- As `envAllOk` but the model returns an untagged fenced block whose
contents are not a diff. -/
def envHello : AgentEnv := { envAllOk with llmOut := "```\nhello\n```" }

/-- As `envAllOk` but the model returns prose with no diff at all. -/
def envNoDiff : AgentEnv := { envAllOk with llmOut := "no diff here" }

/-- As `envAllOk` but a poetry lockfile is declared and every preflight
command (dependency installation included) fails. -/
def envPreflightFail : AgentEnv :=
  { envAllOk with poetryLock := true, cmdResult := failCmd }

/-- Does an action attempt an apply of some diff? -/
def isApplyAct : AgentAct → Bool
  | AgentAct.gitApply _ => true
  | _ => false

/-- Does an action open a pull request? -/
def isOpenPRAct : AgentAct → Bool
  | AgentAct.openPR _ => true
  | _ => false

-- ---------- C4 ----------

/-- C4: the preflight runner is total — under exit-code semantics for
external commands its only caught exception class is the nonzero-exit
error, and every executed command (failing ones included) contributes its
invocation line and captured output to the returned log; moreover a
pipeline run whose non-preflight steps all succeed reaches commit, push
and PR creation whatever the preflight declarations and command outcomes
are (none of the hypotheses below constrain them). -/
theorem run_checks_never_fatal :
    (∀ env : AgentEnv, ∀ c ∈ checksCmds env, execEntry env c ∈ run_checks_log env) ∧
    (∀ token owner repo : String, ∀ issue : Issue, ∀ env : AgentEnv, ∀ g : GitState,
      env.fetchOk = true → env.checkoutOk = true → env.resetOk = true →
      env.cleanOk = true → env.branchOk = true → env.promptOk = true →
      env.llmOk = true → extract_unified_diff env.llmOut ≠ "" →
      env.applyOk = true → env.addOk = true → env.commitOk = true →
      env.pushOk = true → env.prOk = true →
      (process_issue token owner repo issue env g).res = Except.ok () ∧
      AgentAct.gitCommit ("fix: minimal change for issue #" ++ toString issue.number
          ++ " (" ++ issue.title ++ ")") ∈ (process_issue token owner repo issue env g).trace ∧
      AgentAct.gitPush "agent-origin" (minimal_branch_name issue.number issue.title)
          ∈ (process_issue token owner repo issue env g).trace ∧
      AgentAct.openPR (issue.title ++ " [agent]")
          ∈ (process_issue token owner repo issue env g).trace) := by
  constructor
  · intro env c hc
    exact List.mem_map_of_mem (execEntry env) hc
  · intro token owner repo issue env g hfe hco hre hcl hbr hpm hll hdf hap had hcm hps hpr
    refine ⟨?_, ?_, ?_, ?_⟩ <;>
      simp [process_issue, publish, create_ephemeral_remote, delete_ephemeral_remote,
        hfe, hco, hre, hcl, hbr, hpm, hll, hdf, hap, had, hcm, hps, hpr]

/-- Witness for C4: with a poetry lockfile declared and dependency
installation failing, the failure is in the preflight log and the pipeline
still opens the PR. -/
theorem run_checks_never_fatal_witness :
    execEntry envPreflightFail "poetry install --no-root -q" ∈ run_checks_log envPreflightFail ∧
    (process_issue "tk" "own" "rep" ⟨42, "Fix login crash", ""⟩ envPreflightFail ⟨[]⟩).res
      = Except.ok () :=
  ⟨run_checks_never_fatal.1 envPreflightFail _ (by decide),
   (run_checks_never_fatal.2 "tk" "own" "rep" ⟨42, "Fix login crash", ""⟩ envPreflightFail ⟨[]⟩
      rfl rfl rfl rfl rfl rfl rfl (by decide) rfl rfl rfl rfl rfl).1⟩

-- ---------- C1 ----------

/-- C1 (amended): `apply_diff` makes exactly one apply attempt — the
index apply with whitespace-fix mode — and there is no fallback: when that
single `git apply` invocation fails, the issue attempt ends with the apply
error, no further apply is tried, and no PR is opened this tick. -/
theorem apply_diff_no_fallback (token owner repo : String) (issue : Issue)
    (env : AgentEnv) (g : GitState)
    (hfe : env.fetchOk = true) (hco : env.checkoutOk = true)
    (hre : env.resetOk = true) (hcl : env.cleanOk = true)
    (hbr : env.branchOk = true) (hpm : env.promptOk = true)
    (hll : env.llmOk = true) (hdf : extract_unified_diff env.llmOut ≠ "")
    (hap : env.applyOk = false) :
    (process_issue token owner repo issue env g).res =
      Except.error (AgentErr.gitFail (AgentAct.gitApply (extract_unified_diff env.llmOut))) ∧
    (process_issue token owner repo issue env g).trace.countP (fun a => isApplyAct a) = 1 ∧
    (process_issue token owner repo issue env g).trace.countP (fun a => isOpenPRAct a) = 0 := by
  refine ⟨?_, ?_, ?_⟩ <;>
    simp [process_issue, hfe, hco, hre, hcl, hbr, hpm, hll, hdf, hap,
      isApplyAct, isOpenPRAct]

/-- Counterexample to C1 as stated: in a run where every step before the
apply succeeds and the fast-path apply fails, the trace holds exactly one
apply attempt (no second, fallback attempt is performed), the run ends in
the apply error, and the pipeline does not proceed to PR creation. -/
theorem apply_diff_fallback_cex :
    (process_issue "tk" "own" "rep" ⟨5, "fix", ""⟩ envApplyFail ⟨[]⟩).res =
      Except.error (AgentErr.gitFail (AgentAct.gitApply "--- a/f\n+++ b/f")) ∧
    (process_issue "tk" "own" "rep" ⟨5, "fix", ""⟩ envApplyFail ⟨[]⟩).trace.countP
      (fun a => isApplyAct a) = 1 ∧
    (process_issue "tk" "own" "rep" ⟨5, "fix", ""⟩ envApplyFail ⟨[]⟩).trace.countP
      (fun a => isOpenPRAct a) = 0 := by
  decide

/-- Witness for C1's amended theorem at a concrete failing-apply run. -/
theorem apply_diff_no_fallback_witness :
    (process_issue "tk" "own" "rep" ⟨6, "wit", ""⟩ envApplyFail ⟨[]⟩).res =
      Except.error (AgentErr.gitFail (AgentAct.gitApply (extract_unified_diff envApplyFail.llmOut))) ∧
    (process_issue "tk" "own" "rep" ⟨6, "wit", ""⟩ envApplyFail ⟨[]⟩).trace.countP
      (fun a => isApplyAct a) = 1 ∧
    (process_issue "tk" "own" "rep" ⟨6, "wit", ""⟩ envApplyFail ⟨[]⟩).trace.countP
      (fun a => isOpenPRAct a) = 0 :=
  apply_diff_no_fallback "tk" "own" "rep" ⟨6, "wit", ""⟩ envApplyFail ⟨[]⟩
    rfl rfl rfl rfl rfl rfl rfl (by decide) rfl

-- ---------- C2 ----------

/-- C2 (amended): the only gate the applier enforces before the apply
attempt is non-emptiness of the extracted candidate: an empty extraction
is the fatal no-diff failure and nothing is applied, while every non-empty
candidate — whatever its first characters — is passed to `git apply`,
whose exit status alone judges validity. -/
theorem apply_gate_nonempty_only (token owner repo : String) (issue : Issue)
    (env : AgentEnv) (g : GitState)
    (hfe : env.fetchOk = true) (hco : env.checkoutOk = true)
    (hre : env.resetOk = true) (hcl : env.cleanOk = true)
    (hbr : env.branchOk = true) (hpm : env.promptOk = true)
    (hll : env.llmOk = true) :
    (extract_unified_diff env.llmOut = "" →
      (process_issue token owner repo issue env g).res = Except.error AgentErr.noDiff ∧
      (process_issue token owner repo issue env g).trace.countP (fun a => isApplyAct a) = 0) ∧
    (extract_unified_diff env.llmOut ≠ "" →
      AgentAct.gitApply (extract_unified_diff env.llmOut)
        ∈ (process_issue token owner repo issue env g).trace) := by
  constructor
  · intro hdf
    refine ⟨?_, ?_⟩ <;>
      simp [process_issue, hfe, hco, hre, hcl, hbr, hpm, hll, hdf, isApplyAct]
  · intro hdf
    cases hap : env.applyOk <;> cases had : env.addOk <;> cases hcm : env.commitOk <;>
      cases hps : env.pushOk <;> cases hpr : env.prOk <;>
      simp [process_issue, publish, create_ephemeral_remote, delete_ephemeral_remote,
        hfe, hco, hre, hcl, hbr, hpm, hll, hdf, hap, had, hcm, hps, hpr]

/-- Counterexample to C2 as stated: the model output wraps plain prose in
an untagged fence; the candidate "hello" starts with neither a --- a/
preamble nor any diff header, yet the applier attempts to apply it — and
with the apply command succeeding the run even reaches PR creation. -/
theorem apply_gate_cex :
    extract_unified_diff "```\nhello\n```" = "hello" ∧
    litPre "--- a/".data "hello".data = false ∧
    litPre "diff".data "hello".data = false ∧
    AgentAct.gitApply "hello"
      ∈ (process_issue "tk" "own" "rep" ⟨5, "fix", ""⟩ envHello ⟨[]⟩).trace ∧
    (process_issue "tk" "own" "rep" ⟨5, "fix", ""⟩ envHello ⟨[]⟩).res = Except.ok () := by
  decide

/-- Witness for C2's amended theorem: the empty-extraction branch at a
prose-only completion, and the apply attempt at the untagged-fence one. -/
theorem apply_gate_nonempty_only_witness :
    ((process_issue "tk" "own" "rep" ⟨7, "w", ""⟩ envNoDiff ⟨[]⟩).res =
        Except.error AgentErr.noDiff ∧
      (process_issue "tk" "own" "rep" ⟨7, "w", ""⟩ envNoDiff ⟨[]⟩).trace.countP
        (fun a => isApplyAct a) = 0) ∧
    AgentAct.gitApply (extract_unified_diff envHello.llmOut)
      ∈ (process_issue "tk" "own" "rep" ⟨7, "w", ""⟩ envHello ⟨[]⟩).trace :=
  ⟨(apply_gate_nonempty_only "tk" "own" "rep" ⟨7, "w", ""⟩ envNoDiff ⟨[]⟩
      rfl rfl rfl rfl rfl rfl rfl).1 (by decide),
   (apply_gate_nonempty_only "tk" "own" "rep" ⟨7, "w", ""⟩ envHello ⟨[]⟩
      rfl rfl rfl rfl rfl rfl rfl).2 (by decide)⟩

-- ---------- C3 ----------

/-- Is there an opening triple backtick immediately followed by a
diff or patch tag (case-insensitive) somewhere in the text? -/
def taggedFenceAt (s : List Char) : Bool :=
  litPre backtick3 s && (ciPre "diff".data (s.drop 3) || ciPre "patch".data (s.drop 3))

def hasTaggedFence : List Char → Bool
  | [] => false
  | c :: cs => taggedFenceAt (c :: cs) || hasTaggedFence cs

/-- C3 (amended): the extractor is a total function; every input on which
the fenced-block pattern finds no match (an unclosed fence included) and
which lacks the pair of a ----prefixed and a +++-prefixed
(whitespace-anchored, multiline) line returns the empty no-diff result;
and when the pattern does match — whatever the fence's tag — the first
match's trimmed lazy-group contents become the candidate (so a fence
around pure whitespace also yields the empty result). -/
theorem extract_no_diff_amended :
    (∀ s : String, searchFence s.data = none →
      ¬(hasLineMatch dashPre s.data = true ∧ hasLineMatch plusPre s.data = true) →
      extract_unified_diff s = "") ∧
    (∀ t g, searchFence t = some g → extractDiffL t = pyStrip g) := by
  constructor
  · intro s h1 h2
    rw [extract_unified_diff, extractDiffL, h1]
    rcases Bool.eq_false_or_eq_true (hasLineMatch dashPre s.data) with hd | hd
    · rcases Bool.eq_false_or_eq_true (hasLineMatch plusPre s.data) with hp | hp
      · exact absurd ⟨hd, hp⟩ h2
      · simp [hd, hp]
    · simp [hd]
  · intro t g h
    rw [extractDiffL, h]

/-- Counterexample to C3 as stated: an untagged fenced block around plain
prose.  The input holds no diff/patch-tagged fence and neither anchored
header line, yet the extractor does not return the empty result — the
untagged fence's contents become the candidate. -/
theorem extract_untagged_fence_cex :
    hasTaggedFence "```\nhello\n```".data = false ∧
    hasLineMatch dashPre "```\nhello\n```".data = false ∧
    hasLineMatch plusPre "```\nhello\n```".data = false ∧
    extract_unified_diff "```\nhello\n```" = "hello" := by
  decide

/-- Witness for C3's amended theorem at plain prose, at an unclosed fence
(a triple backtick the pattern does not match), and at a tagged fence. -/
theorem extract_no_diff_amended_witness :
    extract_unified_diff "no diff here" = "" ∧
    extract_unified_diff "```abc" = "" ∧
    extractDiffL "```diff\n--- a/f\n+++ b/f\n```".data =
      pyStrip "--- a/f\n+++ b/f\n".data :=
  ⟨extract_no_diff_amended.1 "no diff here" (by decide) (by decide),
   extract_no_diff_amended.1 "```abc" (by decide) (by decide),
   extract_no_diff_amended.2 "```diff\n--- a/f\n+++ b/f\n```".data
     "--- a/f\n+++ b/f\n".data (by decide)⟩

-- ---------- C5 ----------

lemma lookupJ_insertJ_self (k : String) (v : JVal) (l : List (String × JVal)) :
    lookupJ k (insertJ k v l) = some v := by
  induction l with
  | nil => simp [insertJ, lookupJ]
  | cons kv t ih =>
    by_cases h : kv.1 = k <;> simp [insertJ, lookupJ, h, ih]

lemma lookupJ_insertJ_other (k k2 : String) (v : JVal) (l : List (String × JVal))
    (h : k2 ≠ k) : lookupJ k (insertJ k2 v l) = lookupJ k l := by
  induction l with
  | nil => simp [insertJ, lookupJ, h]
  | cons kv t ih =>
    by_cases h2 : kv.1 = k2
    · have h3 : kv.1 ≠ k := by rw [h2]; exact h
      simp [insertJ, lookupJ, h2, h, h3]
    · simp [insertJ, lookupJ, h2, ih]

/-- C5: a pipeline failure leaves the dedup store untouched for the issue
(the whole in-memory state is unchanged), and the issue is marked
processed exactly when `process_issue` returned normally — which per
`process_issue_ok_iff` requires every step through PR creation to have
succeeded. -/
theorem dedup_marks_only_on_success (token owner repo : String) (te : TickEnv)
    (issue : Issue) (st : AgentState) (g : GitState)
    (hnew : alreadyProcessed (issueKey issue) st = false) :
    (∀ e, (process_issue token owner repo issue (te.envOf issue.number) g).res = Except.error e →
        (processLoop token owner repo te [issue] st g).1 = st) ∧
    ((process_issue token owner repo issue (te.envOf issue.number) g).res = Except.ok () →
      lookupJ (issueKey issue)
          (processLoop token owner repo te [issue] st g).1.processed =
        some (JVal.jdict [("processed_at", JVal.jstr (te.tsOf issue.number))]) ∧
      (te.envOf issue.number).prOk = true ∧ (te.envOf issue.number).pushOk = true ∧
      (te.envOf issue.number).commitOk = true ∧ (te.envOf issue.number).addOk = true ∧
      (te.envOf issue.number).applyOk = true ∧
      extract_unified_diff (te.envOf issue.number).llmOut ≠ "") := by
  constructor
  · intro e he
    simp [processLoop, hnew, he]
  · intro hok
    have hflags := (process_issue_ok_iff token owner repo issue (te.envOf issue.number) g).mp hok
    obtain ⟨-, -, -, -, -, -, -, hdf, hap2, had2, hcm2, hps2, hpr2⟩ := hflags
    refine ⟨?_, hpr2, hps2, hcm2, had2, hap2, hdf⟩
    simp [processLoop, hnew, hok, save_state, lookupJ_insertJ_self]

/-- Tick oracle whose per-issue environment always fails at the apply. -/
def teApplyFail : TickEnv := ⟨true, fun _ => envApplyFail, fun _ => "ts0", "ts1"⟩

/-- Witness for C5: a run failing at the apply leaves the state exactly as
it was. -/
theorem dedup_marks_only_on_success_witness :
    (processLoop "tk" "own" "rep" teApplyFail [⟨3, "a", ""⟩] ⟨[], none⟩ ⟨[]⟩).1 =
      (⟨[], none⟩ : AgentState) :=
  (dedup_marks_only_on_success "tk" "own" "rep" teApplyFail ⟨3, "a", ""⟩ ⟨[], none⟩ ⟨[]⟩ rfl).1
    (AgentErr.gitFail (AgentAct.gitApply "--- a/f\n+++ b/f")) (by decide)

-- ---------- C6 ----------

lemma processLoop_skips_truthy (token owner repo : String) (te : TickEnv)
    (issues : List Issue) (num : String) (v : JVal) (hv : truthy v = true) :
    ∀ st g, lookupJ num st.processed = some v →
      lookupJ num (processLoop token owner repo te issues st g).1.processed = some v ∧
      num ∉ attemptedNums (processLoop token owner repo te issues st g).2.2 := by
  induction issues with
  | nil => intro st g h; simp [processLoop, attemptedNums, h]
  | cons issue rest ih =>
    intro st g h
    cases ha : alreadyProcessed (issueKey issue) st
    case true =>
      simp only [processLoop, ha, if_true]
      exact ih st g h
    case false =>
      have hk : issueKey issue ≠ num := by
        intro hEq
        simp [alreadyProcessed, hEq, h, hv] at ha
      cases hres : (process_issue token owner repo issue (te.envOf issue.number) g).res with
      | error e =>
        obtain ⟨ih1, ih2⟩ :=
          ih st (process_issue token owner repo issue (te.envOf issue.number) g).git h
        refine ⟨?_, ?_⟩
        · simpa [processLoop, ha, hres] using ih1
        · simp only [processLoop, ha, hres, attemptedNums, List.filterMap_cons,
            Bool.false_eq_true, if_false]
          simp only [attemptedNums] at ih2
          simp [List.mem_cons, hk, ih2]
          exact fun hEq => hk hEq.symm
      | ok u =>
        have hpres : lookupJ num
            (⟨insertJ (issueKey issue)
                (JVal.jdict [("processed_at", JVal.jstr (te.tsOf issue.number))])
                st.processed,
              some (te.tsOf issue.number)⟩ : AgentState).processed = some v := by
          simpa [lookupJ_insertJ_other _ _ _ _ hk] using h
        obtain ⟨ih1, ih2⟩ :=
          ih ⟨insertJ (issueKey issue)
                (JVal.jdict [("processed_at", JVal.jstr (te.tsOf issue.number))])
                st.processed,
              some (te.tsOf issue.number)⟩
            (process_issue token owner repo issue (te.envOf issue.number) g).git hpres
        refine ⟨?_, ?_⟩
        · simpa [processLoop, ha, hres, save_state] using ih1
        · simp only [processLoop, ha, hres, save_state, attemptedNums, List.filterMap_cons,
            Bool.false_eq_true, if_false]
          simp only [attemptedNums] at ih2
          simp [List.mem_cons, ih2]
          exact fun hEq => hk hEq.symm

lemma tick_skips_truthy (token owner repo : String) (te : TickEnv)
    (issues : List Issue) (num : String) (v : JVal) (hv : truthy v = true)
    (st : AgentState) (g : GitState) (h : lookupJ num st.processed = some v) :
    lookupJ num (tick token owner repo te issues st g).1.processed = some v ∧
    num ∉ attemptedNums (tick token owner repo te issues st g).2.2 := by
  cases hl : te.listOk
  case false =>
    simp [tick, hl, save_state, attemptedNums, h]
  case true =>
    obtain ⟨h1, h2⟩ := processLoop_skips_truthy token owner repo te issues num v hv st g h
    constructor
    · simpa [tick, hl, save_state] using h1
    · simp only [tick, hl, if_true]
      simp only [attemptedNums, List.filterMap_append] at h2 ⊢
      simpa using h2

/-- C6 (amended): an issue whose identifier maps to a truthy stored value
(the non-empty record the agent itself writes) is skipped by every poll
tick for the rest of the run — the pipeline is never invoked for it and
its store entry is never changed; mere presence of the key is not enough,
as the counterexample shows. -/
theorem dedup_truthy_skip (token owner repo : String)
    (ticks : List (TickEnv × List Issue)) (st : AgentState) (g : GitState)
    (num : String) (v : JVal)
    (hv : lookupJ num st.processed = some v) (ht : truthy v = true) :
    num ∉ attemptedNums (runTicks token owner repo ticks st g).2.2 ∧
    lookupJ num (runTicks token owner repo ticks st g).1.processed = some v := by
  induction ticks generalizing st g with
  | nil => simp [runTicks, attemptedNums, hv]
  | cons one rest ih =>
    obtain ⟨h1, h2⟩ :=
      tick_skips_truthy token owner repo one.1 one.2 num v ht st g hv
    obtain ⟨ih1, ih2⟩ :=
      ih (tick token owner repo one.1 one.2 st g).1
        (tick token owner repo one.1 one.2 st g).2.1 h1
    constructor
    · simp only [runTicks, attemptedNums, List.filterMap_append, List.mem_append]
      simp only [attemptedNums] at h2 ih1
      exact fun hor => hor.elim h2 ih1
    · simpa [runTicks] using ih2

/-- The dedup store whose key "7" holds an empty (falsy) record. -/
def falsyStore : AgentState := ⟨[("7", JVal.jdict [])], none⟩

/-- Tick oracle whose per-issue environment always fully succeeds. -/
def teAllOk : TickEnv := ⟨true, fun _ => envAllOk, fun _ => "ts0", "ts1"⟩

/-- Counterexample to C6 as stated: issue 7's identifier is present as a
key of the processed mapping, yet — its stored value being falsy — the
poll tick does invoke the pipeline for it. -/
theorem dedup_key_presence_cex :
    (lookupJ "7" falsyStore.processed).isSome = true ∧
    attemptedNums (tick "tk" "own" "rep" teAllOk [⟨7, "t", ""⟩] falsyStore ⟨[]⟩).2.2 =
      ["7"] := by
  decide

/-- Witness for C6's amended theorem: with the truthy record the agent
itself writes, issue 7 is not attempted over a whole tick. -/
theorem dedup_truthy_skip_witness :
    "7" ∉ attemptedNums
      (runTicks "tk" "own" "rep" [(teAllOk, [⟨7, "t", ""⟩])]
        ⟨[("7", JVal.jdict [("processed_at", JVal.jstr "x")])], none⟩ ⟨[]⟩).2.2 :=
  (dedup_truthy_skip "tk" "own" "rep" [(teAllOk, [⟨7, "t", ""⟩])]
    ⟨[("7", JVal.jdict [("processed_at", JVal.jstr "x")])], none⟩ ⟨[]⟩
    "7" (JVal.jdict [("processed_at", JVal.jstr "x")]) rfl rfl).1


-- ---------- C8 ----------

lemma headIsFlush_nil : headIsFlush [] = false := rfl

lemma headIsFlush_flush (d : String) (t : List TickEv) :
    headIsFlush (TickEv.flush d :: t) = true := rfl

lemma headIsFlush_attempt (n : String) (a : List AgentAct) (ok : Bool) (t : List TickEv) :
    headIsFlush (TickEv.attempt n a ok :: t) = false := rfl

lemma mutationsFlushed_append_flush (evs : List TickEv) (c : String)
    (h : mutationsFlushed evs = true) :
    mutationsFlushed (evs ++ [TickEv.flush c]) = true := by
  induction evs with
  | nil => simp [mutationsFlushed]
  | cons e rest ih =>
    cases e with
    | flush d =>
      rw [mutationsFlushed] at h
      rw [List.cons_append, mutationsFlushed]
      exact ih h
    | attempt n a ok =>
      rw [mutationsFlushed, Bool.and_eq_true] at h
      obtain ⟨hm, hrest⟩ := h
      rw [List.cons_append, mutationsFlushed, Bool.and_eq_true]
      refine ⟨?_, ih hrest⟩
      rcases Bool.or_eq_true_iff.mp hm with hok | hflush
      · rw [hok]; rfl
      · cases rest with
        | nil => rw [headIsFlush_nil] at hflush; cases hflush
        | cons r rrest =>
          cases r with
          | flush d => simp [headIsFlush_flush]
          | attempt n2 a2 ok2 => rw [headIsFlush_attempt] at hflush; cases hflush

lemma processLoop_mutationsFlushed (token owner repo : String) (te : TickEnv) :
    ∀ issues st g,
      mutationsFlushed (processLoop token owner repo te issues st g).2.2 = true := by
  intro issues
  induction issues with
  | nil => intro st g; simp [processLoop, mutationsFlushed]
  | cons issue rest ih =>
    intro st g
    cases ha : alreadyProcessed (issueKey issue) st
    case true =>
      simp only [processLoop, ha, if_true]
      exact ih st g
    case false =>
      cases hres : (process_issue token owner repo issue (te.envOf issue.number) g).res with
      | error e =>
        simp only [processLoop, ha, hres, Bool.false_eq_true, if_false]
        rw [mutationsFlushed]
        simp only [headIsFlush, Bool.and_eq_true]
        exact ⟨rfl, ih st (process_issue token owner repo issue (te.envOf issue.number) g).git⟩
      | ok u =>
        simp only [processLoop, ha, hres, Bool.false_eq_true, if_false]
        rw [mutationsFlushed, Bool.and_eq_true]
        refine ⟨by rw [headIsFlush_flush]; rfl, ?_⟩
        rw [mutationsFlushed]
        exact ih _ (process_issue token owner repo issue (te.envOf issue.number) g).git

/-- C8: every observable filesystem state during a `save_json` flush shows
the state file holding either its previous content or the complete new
serialization — partial writes touch only the temporary file, and the
rename installs the whole serialization at once; within a tick, every
successful per-issue mutation is immediately followed by a flush, and a
final flush unconditionally closes the tick. -/
theorem atomic_state_persistence :
    (∀ fs : FSt, ∀ content : String, ∀ snap ∈ save_json_snapshots fs content,
      snap.stateFile = fs.stateFile ∨ snap.stateFile = some content) ∧
    (∀ fs : FSt, ∀ content : String, save_json fs content = ⟨some content, none⟩) ∧
    (∀ token owner repo : String, ∀ te : TickEnv, ∀ issues : List Issue,
      ∀ st : AgentState, ∀ g : GitState,
      mutationsFlushed (tick token owner repo te issues st g).2.2 = true ∧
      ∃ evs c, (tick token owner repo te issues st g).2.2 = evs ++ [TickEv.flush c]) := by
  refine ⟨?_, fun _ _ => rfl, ?_⟩
  · intro fs content snap hsnap
    rcases List.mem_cons.mp hsnap with hfs | hsnap2
    · exact Or.inl (by rw [hfs])
    rcases List.mem_append.mp hsnap2 with hmap | hlast
    · obtain ⟨k, -, hk⟩ := List.mem_map.mp hmap
      exact Or.inl (by rw [← hk])
    · rcases List.mem_singleton.mp hlast with rfl
      exact Or.inr rfl
  · intro token owner repo te issues st g
    constructor
    · cases hl : te.listOk
      case false => simp [tick, hl, mutationsFlushed]
      case true =>
        simp only [tick, hl, if_true]
        exact mutationsFlushed_append_flush _ _
          (processLoop_mutationsFlushed token owner repo te issues st g)
    · cases hl : te.listOk
      case false =>
        exact ⟨[], (save_state st te.tsTick).2, by simp [tick, hl]⟩
      case true =>
        exact ⟨(processLoop token owner repo te issues st g).2.2,
          (save_state (processLoop token owner repo te issues st g).1 te.tsTick).2,
          by simp [tick, hl]⟩

/-- Witness for C8: a snapshot taken mid-write (temporary file holding a
strict prefix of the new serialization) still shows the old state file. -/
theorem atomic_state_persistence_witness :
    (⟨some "old", some "n"⟩ : FSt).stateFile = (⟨some "old", none⟩ : FSt).stateFile ∨
    (⟨some "old", some "n"⟩ : FSt).stateFile = some "ns" :=
  atomic_state_persistence.1 ⟨some "old", none⟩ "ns" ⟨some "old", some "n"⟩ (by decide)

-- ---------- C9 ----------

/-- No pair of adjacent hyphens. -/
def noDD (a b : Char) : Prop := ¬(a = '-' ∧ b = '-')

instance : DecidableRel noDD := fun a b => inferInstanceAs (Decidable (¬(a = '-' ∧ b = '-')))

lemma slugKeep_of_mem_collapseBadGo :
    ∀ (l : List Char) (b : Bool), ∀ c ∈ collapseBadGo b l, slugKeep c = true := by
  intro l
  induction l with
  | nil => intro b c hc; simp [collapseBadGo] at hc
  | cons a t ih =>
    intro b c hc
    by_cases h : slugKeep a = true
    · rw [collapseBadGo, if_pos h] at hc
      rcases List.mem_cons.mp hc with rfl | hc2
      · exact h
      · exact ih false c hc2
    · rw [collapseBadGo, if_neg h] at hc
      cases b with
      | true => exact ih true c (by simpa using hc)
      | false =>
        rcases List.mem_cons.mp (by simpa using hc) with rfl | hc2
        · decide
        · exact ih true c hc2

lemma slugKeep_of_mem_collapseDashGo :
    ∀ (l : List Char) (b : Bool), (∀ c ∈ l, slugKeep c = true) →
      ∀ c ∈ collapseDashGo b l, slugKeep c = true := by
  intro l
  induction l with
  | nil => intro b h c hc; simp [collapseDashGo] at hc
  | cons a t ih =>
    intro b h c hc
    have ht : ∀ c ∈ t, slugKeep c = true := fun d hd => h d (List.mem_cons_of_mem a hd)
    by_cases ha : a = '-'
    · subst ha
      rw [collapseDashGo, if_pos rfl] at hc
      cases b with
      | true => exact ih true ht c (by simpa using hc)
      | false =>
        rcases List.mem_cons.mp (by simpa using hc) with rfl | hc2
        · decide
        · exact ih true ht c hc2
    · rw [collapseDashGo, if_neg ha] at hc
      rcases List.mem_cons.mp hc with rfl | hc2
      · exact h _ (List.mem_cons_self _ _)
      · exact ih false ht c hc2

lemma chain_collapseDashGo :
    ∀ l : List Char,
      (∀ b, List.Chain' noDD (collapseDashGo b l)) ∧
      (collapseDashGo true l).head? ≠ some '-' := by
  intro l
  induction l with
  | nil => exact ⟨fun b => by simp [collapseDashGo], by simp [collapseDashGo]⟩
  | cons a t ih =>
    by_cases ha : a = '-'
    · subst ha
      constructor
      · intro b
        cases b with
        | true => simpa [collapseDashGo] using ih.1 true
        | false =>
          rw [collapseDashGo, if_pos rfl]
          simp only [Bool.false_eq_true, if_false]
          refine List.chain'_cons'.mpr ⟨?_, ih.1 true⟩
          intro y hy
          intro hpair
          exact ih.2 (by rw [← hpair.2]; exact hy)
      · simpa [collapseDashGo] using ih.2
    · constructor
      · intro b
        rw [collapseDashGo, if_neg ha]
        refine List.chain'_cons'.mpr ⟨?_, ih.1 false⟩
        exact fun y _ hpair => ha hpair.1
      · rw [collapseDashGo, if_neg ha]
        simp [ha]

lemma chain_noDD_reverse (l : List Char) (h : List.Chain' noDD l) :
    List.Chain' noDD l.reverse :=
  List.chain'_reverse.mpr (h.imp (fun _ _ hab hxy => hab ⟨hxy.2, hxy.1⟩))

lemma chain_stripDash (l : List Char) (h : List.Chain' noDD l) :
    List.Chain' noDD (stripDash l) := by
  have h1 := h.suffix (List.dropWhile_suffix (fun c => c = '-'))
  have h2 := chain_noDD_reverse _ h1
  have h3 := h2.suffix (List.dropWhile_suffix (fun c => c = '-'))
  exact chain_noDD_reverse _ h3

lemma mem_of_mem_stripDash (l : List Char) (c : Char) (hc : c ∈ stripDash l) : c ∈ l := by
  rw [stripDash, List.mem_reverse] at hc
  have hc2 : c ∈ (l.dropWhile (fun c => c = '-')).reverse :=
    List.Sublist.subset (List.dropWhile_sublist _) hc
  rw [List.mem_reverse] at hc2
  exact List.Sublist.subset (List.dropWhile_sublist _) hc2

lemma collapseBadGo_all_bad :
    ∀ l : List Char, (∀ c ∈ l, slugKeep c = false) →
      collapseBadGo true l = [] ∧
      collapseBadGo false l = (if l.isEmpty then [] else ['-']) := by
  intro l
  induction l with
  | nil => exact fun _ => ⟨rfl, rfl⟩
  | cons a t ih =>
    intro h
    have ha : slugKeep a = false := h a (List.mem_cons_self a t)
    have ht : ∀ c ∈ t, slugKeep c = false := fun d hd => h d (List.mem_cons_of_mem a hd)
    have ha2 : ¬(slugKeep a = true) := by simp [ha]
    constructor
    · rw [collapseBadGo, if_neg ha2]
      simpa using (ih ht).1
    · rw [collapseBadGo, if_neg ha2]
      simpa using (ih ht).1

lemma String_mk_ne_empty (l : List Char) (h : l ≠ []) : String.mk l ≠ "" := by
  intro hEq
  exact h (by simpa using congrArg String.data hEq)

/-- C9 (amended): branch naming is a pure function (hence deterministic in
identifier and title); the slug is at most 60 characters, never empty
(all-replaced titles fall back to "change"), consists only of characters
from the kept class [a-z0-9\-._/] — so dots, underscores and slashes are
preserved rather than collapsed into the separator — and never holds two
adjacent hyphens (only runs of characters outside the kept class, and
hyphen runs, are collapsed to a single hyphen). -/
theorem slugify_amended :
    (∀ s : String,
      (slugify s).length ≤ 60 ∧
      slugify s ≠ "" ∧
      (∀ c ∈ (slugify s).data, slugKeep c = true) ∧
      List.Chain' noDD (slugify s).data) ∧
    (∀ s : String, (∀ c ∈ s.data, slugKeep c.toLower = false) → slugify s = "change") := by
  constructor
  · intro s
    simp only [slugify, slugifyL]
    by_cases he : ((stripDash (collapseDash (collapseBad
        (s.data.map Char.toLower)))).take 60).isEmpty
    · rw [if_pos he]
      refine ⟨by decide, by decide, by decide, ?_⟩
      show List.Chain' noDD ['c', 'h', 'a', 'n', 'g', 'e']
      refine List.Chain'.cons ?_ (List.Chain'.cons ?_ (List.Chain'.cons ?_
        (List.Chain'.cons ?_ (List.Chain'.cons ?_
          (List.chain'_singleton _))))) <;>
        exact fun hp => absurd hp.1 (by decide)
    · rw [if_neg he]
      have hkept : ∀ c ∈ (stripDash (collapseDash (collapseBad
          (s.data.map Char.toLower)))).take 60, slugKeep c = true := by
        intro c hc
        have hc1 := List.mem_of_mem_take hc
        have hc2 := mem_of_mem_stripDash _ _ hc1
        exact slugKeep_of_mem_collapseDashGo _ false
          (slugKeep_of_mem_collapseBadGo _ false) c hc2
      have hchain : List.Chain' noDD ((stripDash (collapseDash (collapseBad
          (s.data.map Char.toLower)))).take 60) :=
        (chain_stripDash _ ((chain_collapseDashGo _).1 false)).take 60
      refine ⟨?_, ?_, hkept, hchain⟩
      · exact List.length_take_le 60 _
      · refine String_mk_ne_empty _ ?_
        intro h
        exact he (List.isEmpty_iff.mpr h)
  · intro s h
    have hbad : ∀ c ∈ s.data.map Char.toLower, slugKeep c = false := by
      intro c hc
      obtain ⟨d, hd, rfl⟩ := List.mem_map.mp hc
      exact h d hd
    obtain ⟨-, h2⟩ := collapseBadGo_all_bad _ hbad
    by_cases hnil : (List.map Char.toLower s.data).isEmpty
    · simp only [slugify, slugifyL, collapseBad]
      rw [h2, if_pos hnil]
      decide
    · simp only [slugify, slugifyL, collapseBad]
      rw [h2, if_neg hnil]
      decide

/-- Counterexample to C9 as stated: the title "a.b" slugifies to "a.b" —
the dot, a non-alphanumeric character, survives untouched instead of its
run being collapsed to the single separator. -/
theorem slugify_collapse_cex :
    slugify "a.b" = "a.b" ∧ '.' ∈ (slugify "a.b").data ∧
    '.'.isAlphanum = false ∧ ¬('.' = '-') := by
  decide

/-- Witness for C9's amended theorem: a mixed title obeys the bound and an
all-replaced title falls back to the placeholder. -/
theorem slugify_amended_witness :
    (slugify "Fix: login crash").length ≤ 60 ∧ slugify "!!!" = "change" :=
  ⟨(slugify_amended.1 "Fix: login crash").1, slugify_amended.2 "!!!" (by decide)⟩
